import Mathlib

set_option autoImplicit false

namespace SimpleLB

/-- Width of Go's uint64: the pool cursor wraps modulo this value. -/
def uint64Card : Nat := 2 ^ 64

/-- One backend record from lb.go: the normalized URL string, its host part
(what the liveness probe dials), and the mutable alive flag. The reverse
proxy collaborator is out of scope; a backend is referred to by its index. -/
structure Backend where
  url : String
  host : String
  alive : Bool
deriving Repr, DecidableEq

instance : Inhabited Backend := ⟨⟨"", "", false⟩⟩

/-- The server pool from lb.go: the ordered backend slice plus the shared
rotation cursor (a uint64, modelled as a Nat kept below 2^64 by the
operations). -/
structure ServerPool where
  backends : List Backend
  currentIndex : Nat
deriving Repr, DecidableEq

/-- NextIndex from lb.go: add 1 to the cursor (wrapping modulo 2^64) and
return the new cursor value modulo the pool length, together with the
updated pool. -/
def NextIndex (s : ServerPool) : Nat × ServerPool :=
  let c := (s.currentIndex + 1) % uint64Card
  (c % s.backends.length, { s with currentIndex := c })

/-- Body of the range loop in MarkBackendStatus: set the alive flag of the
first backend whose URL string equals the given one, then stop scanning. -/
def setFirstMatch (u : String) (a : Bool) : List Backend → List Backend
  | [] => []
  | b :: bs =>
    if b.url = u then { b with alive := a } :: bs
    else b :: setFirstMatch u a bs

/-- MarkBackendStatus from lb.go: linear scan for the backend whose URL
string equals the argument; sets its alive flag; silently does nothing
when no backend matches. -/
def MarkBackendStatus (s : ServerPool) (u : String) (a : Bool) : ServerPool :=
  { s with backends := setFirstMatch u a s.backends }

/-- The scan loop of GetNextPeer: the loop variable i equals next + k, and
fuel many iterations remain. Returns the index (mod len) of the first alive
backend together with its offset k from the starting position. -/
def scanAlive (bs : List Backend) (next : Nat) : Nat → Nat → Option (Nat × Nat)
  | _, 0 => none
  | k, fuel + 1 =>
    let idx := (next + k) % bs.length
    if (bs.getD idx default).alive then some (idx, k)
    else scanAlive bs next (k + 1) fuel

/-- GetNextPeer from lb.go: call NextIndex once to get a starting point,
scan forward through at most len consecutive indices (wrapping) for the
first alive backend; when it is found at an offset other than the starting
index, store that index into the shared cursor. Returns the chosen
backend's index, or none when no backend is alive, plus the updated pool. -/
def GetNextPeer (s : ServerPool) : Option Nat × ServerPool :=
  let p := NextIndex s
  let s1 := p.2
  match scanAlive s1.backends p.1 0 s1.backends.length with
  | none => (none, s1)
  | some (idx, k) =>
    if k ≠ 0 then (some idx, { s1 with currentIndex := idx })
    else (some idx, s1)

/-- The 2-second timeout isBackendAlive passes to the transport dial. -/
def healthTimeout : Nat := 2

/-- isBackendAlive from lb.go, with the transport-layer dial modelled as an
oracle from host and timeout to success: true exactly when a connection to
the host succeeds within the timeout. -/
def isBackendAlive (dial : String → Nat → Bool) (host : String) : Bool :=
  dial host healthTimeout

/-- The HealthCheck method from lb.go: for every backend of the pool, in
order, set its alive flag to the outcome of the connectivity probe. -/
def HealthCheck (dial : String → Nat → Bool) (s : ServerPool) : ServerPool :=
  { s with backends :=
      s.backends.map fun b => { b with alive := isBackendAlive dial b.host } }

/-- Pool states produced by the healthCheck goroutine from lb.go: index 0
is the forced pass run immediately at startup, before the 20-second ticker
delivers anything; index n + 1 is the pass run on the n-th tick. -/
def healthCheckStates (dial : String → Nat → Bool) (s : ServerPool) : Nat → ServerPool
  | 0 => HealthCheck dial s
  | n + 1 => HealthCheck dial (healthCheckStates dial s n)

/-- The request context values lb.go stores: the Attempt and the Retry
keys, each absent or holding a Go int. -/
structure ReqCtx where
  attempt : Option Int
  retry : Option Int
deriving Repr, DecidableEq

/-- GetRetryFromContext from lb.go: the Retry value when present, else 0. -/
def GetRetryFromContext (r : ReqCtx) : Int :=
  r.retry.getD 0

/-- GetAttemptsFromContext from lb.go: the Attempt value when present,
else 0. -/
def GetAttemptsFromContext (r : ReqCtx) : Int :=
  r.attempt.getD 0

/-- Outcome of the lb handler: a 503 issued before any peer selection, a
503 because no alive peer exists, or delegation to the chosen peer's
reverse proxy. -/
inductive LbResult where
  | tooManyAttempts
  | noPeer
  | proxied (idx : Nat)
deriving Repr, DecidableEq

/-- The lb handler from lb.go, returning its outcome together with the
pool state after the call; the pool is touched only through GetNextPeer. -/
def lb (s : ServerPool) (r : ReqCtx) : LbResult × ServerPool :=
  let attempts := GetAttemptsFromContext r
  if attempts > 3 then (.tooManyAttempts, s)
  else
    match GetNextPeer s with
    | (none, s1) => (.noPeer, s1)
    | (some idx, s1) => (.proxied idx, s1)

/-- What the ErrorHandler closure does next: re-invoke the same peer's
proxy after the given delay in milliseconds, or hand the request to lb for
rerouting; either way it carries the updated request context. -/
inductive HandlerStep where
  | retrySame (delayMs : Nat) (r : ReqCtx)
  | rerouteLb (r : ReqCtx)
deriving Repr, DecidableEq

/-- The request context carried by a handler step. -/
def HandlerStep.req : HandlerStep → ReqCtx
  | .retrySame _ r => r
  | .rerouteLb r => r

/-- The proxy.ErrorHandler closure from lb.go for the peer at the given
URL: when the context's retries count exceeds 3, wait 10 ms, store
retries + 1 under the Retry key and re-invoke the same proxy; otherwise
mark this peer dead, store attempts + 1 under the Attempt key and
re-invoke lb. -/
def errorHandler (peerUrl : String) (s : ServerPool) (r : ReqCtx) :
    HandlerStep × ServerPool :=
  let retries := GetRetryFromContext r
  if retries > 3 then
    (.retrySame 10 { r with retry := some (retries + 1) }, s)
  else
    let s1 := MarkBackendStatus s peerUrl false
    let attempts := GetAttemptsFromContext r
    (.rerouteLb { r with attempt := some (attempts + 1) }, s1)

/-- The registration loop of main from lb.go: one backend per token, in
token order, each created with alive set to true. URL parsing is modelled
as an oracle returning the normalized URL string and the host, or none on
a parse error, which is fatal. -/
def buildPool (parse : String → Option (String × String)) :
    List String → Option (List Backend)
  | [] => some []
  | t :: ts =>
    match parse t with
    | none => none
    | some (u, h) =>
      match buildPool parse ts with
      | none => none
      | some bs => some (⟨u, h, true⟩ :: bs)

/-- Startup from main in lb.go: an empty backend-list string is fatal
(none: the process exits before registering any backend or serving);
otherwise the string is split on commas and every token registered. -/
def startup (parse : String → Option (String × String)) (serverList : String) :
    Option (List Backend) :=
  if serverList.length = 0 then none
  else buildPool parse (serverList.splitOn ",")

/-- Results of n successive NextIndex calls on a pool, oldest first. -/
def nextIndexSeq (s : ServerPool) : Nat → List Nat
  | 0 => []
  | n + 1 => (NextIndex s).1 :: nextIndexSeq (NextIndex s).2 n

/-- A Retry context value the program can actually produce: the key is
absent, or it holds a value written by the retry branch, which only stores
retries + 1 under the guard retries > 3, hence a value of at least 5. -/
def reachableRetry (r : ReqCtx) : Prop :=
  match r.retry with
  | none => True
  | some k => 5 ≤ k

/-- A cursor value from which GetNextPeer's starting index is i. -/
def cursorFor (i : Nat) : Nat :=
  if i = 0 then uint64Card - 1 else i - 1

/-- A two-backend pool (second backend dead) used by concrete witnesses. -/
def poolA : ServerPool :=
  ⟨[⟨"http://a", "a:3031", true⟩, ⟨"http://b", "b:3032", false⟩], 5⟩

/-- A one-backend alive pool used by concrete witnesses. -/
def poolB : ServerPool := ⟨[⟨"http://a", "a:3031", true⟩], 0⟩

/-- A three-backend pool whose only alive backend sits at index 1. -/
def poolC3 : ServerPool :=
  ⟨[⟨"http://a", "a:1", false⟩, ⟨"http://b", "b:2", true⟩, ⟨"http://c", "c:3", false⟩], 2⟩

/-- A one-backend pool whose backend is dead. -/
def poolDead : ServerPool := ⟨[⟨"http://a", "a:3031", false⟩], 0⟩

/-- A request context with no stored values. -/
def ctxNone : ReqCtx := ⟨none, none⟩

/-- A request context carrying Retry 5. -/
def ctxR5 : ReqCtx := ⟨none, some 5⟩

/-- A request context carrying Retry 2 (not producible by the program). -/
def ctxR2 : ReqCtx := ⟨none, some 2⟩

/-- A request context carrying Attempt 5. -/
def ctxA5 : ReqCtx := ⟨some 5, none⟩

/-- C1: on a forwarding failure, when the request's retries count exceeds 3
the handler waits the fixed 10 ms delay, stores retries + 1 on the context
and re-invokes the same peer's proxy, leaving the pool untouched; otherwise
it marks the current peer dead via MarkBackendStatus, stores attempts + 1
on the context and re-invokes lb with the updated request. -/
theorem errorHandler_branches (u : String) (s : ServerPool) (r : ReqCtx) :
    (3 < GetRetryFromContext r →
      errorHandler u s r =
        (.retrySame 10 { r with retry := some (GetRetryFromContext r + 1) }, s)) ∧
    (GetRetryFromContext r ≤ 3 →
      errorHandler u s r =
        (.rerouteLb { r with attempt := some (GetAttemptsFromContext r + 1) },
          MarkBackendStatus s u false)) := by
  constructor
  · intro h
    simp [errorHandler, h]
  · intro h
    simp [errorHandler, not_lt.mpr h]

/-- Concrete run of both errorHandler branches. -/
theorem errorHandler_branches_witness :
    errorHandler "http://a" poolB ctxR5 =
      (.retrySame 10 { ctxR5 with retry := some (GetRetryFromContext ctxR5 + 1) }, poolB) ∧
    errorHandler "http://a" poolB ctxNone =
      (.rerouteLb { ctxNone with attempt := some (GetAttemptsFromContext ctxNone + 1) },
        MarkBackendStatus poolB "http://a" false) :=
  ⟨(errorHandler_branches "http://a" poolB ctxR5).1 (by decide),
   (errorHandler_branches "http://a" poolB ctxNone).2 (by decide)⟩

/-- C3 counterexample: on the pool whose only alive backend sits at index 1
and whose cursor is 2, the NextIndex inside GetNextPeer observes cursor 3,
the fast-forward store then writes 1 into the cursor, and the next
NextIndex observes 2, smaller than the previously observed 3. -/
theorem cursor_monotonic_counterexample :
    (NextIndex poolC3).2.currentIndex = 3 ∧
    (GetNextPeer poolC3).2.currentIndex = 1 ∧
    (NextIndex (GetNextPeer poolC3).2).2.currentIndex = 2 ∧
    ¬ (3 < 2) := by decide

/-- C3 amended: each NextIndex call alone advances the cursor by exactly 1,
so reads across NextIndex calls are strictly increasing short of uint64
wraparound; interleaving GetNextPeer loses the guarantee because its
fast-forward store may write a smaller index into the cursor. -/
theorem cursor_monotonic_nextIndex (s : ServerPool)
    (h : s.currentIndex + 1 < uint64Card) :
    (NextIndex s).2.currentIndex = s.currentIndex + 1 ∧
    s.currentIndex < (NextIndex s).2.currentIndex := by
  have he : (s.currentIndex + 1) % uint64Card = s.currentIndex + 1 :=
    Nat.mod_eq_of_lt h
  exact ⟨by simp [NextIndex, he], by simp [NextIndex, he]⟩

/-- Concrete run of the amended cursor-advance property. -/
theorem cursor_monotonic_nextIndex_witness :
    (NextIndex poolA).2.currentIndex = poolA.currentIndex + 1 ∧
    poolA.currentIndex < (NextIndex poolA).2.currentIndex :=
  cursor_monotonic_nextIndex poolA (by decide)

/-- C4: when the request's attempts count exceeds 3, lb answers 503 at once
and leaves the pool untouched, so GetNextPeer is never consulted and the
cursor does not move; when attempts is at most 3 and GetNextPeer yields no
peer, lb answers 503; when GetNextPeer yields a peer, lb delegates to that
peer's reverse proxy and adds nothing to the response. -/
theorem lb_spec (s : ServerPool) (r : ReqCtx) (idx : Nat) :
    (3 < GetAttemptsFromContext r → lb s r = (.tooManyAttempts, s)) ∧
    (GetAttemptsFromContext r ≤ 3 → (GetNextPeer s).1 = none →
      lb s r = (.noPeer, (GetNextPeer s).2)) ∧
    (GetAttemptsFromContext r ≤ 3 → (GetNextPeer s).1 = some idx →
      lb s r = (.proxied idx, (GetNextPeer s).2)) := by
  refine ⟨fun h => ?_, fun h hn => ?_, fun h hs => ?_⟩
  · simp [lb, h]
  · rcases hp : GetNextPeer s with ⟨o, s1⟩
    rw [hp] at hn
    simp only at hn
    subst hn
    simp [lb, not_lt.mpr h, hp]
  · rcases hp : GetNextPeer s with ⟨o, s1⟩
    rw [hp] at hs
    simp only at hs
    subst hs
    simp [lb, not_lt.mpr h, hp]

/-- Concrete run of all three lb branches. -/
theorem lb_spec_witness :
    lb poolB ctxA5 = (.tooManyAttempts, poolB) ∧
    lb poolDead ctxNone = (.noPeer, (GetNextPeer poolDead).2) ∧
    lb poolB ctxNone = (.proxied 0, (GetNextPeer poolB).2) :=
  ⟨(lb_spec poolB ctxA5 0).1 (by decide),
   (lb_spec poolDead ctxNone 0).2.1 (by decide) (by decide),
   (lb_spec poolB ctxNone 0).2.2 (by decide) (by decide)⟩

/-- C5 counterexample: a failing request carrying Retry 2 takes the reroute
branch, and the rerouted request still carries retries 2, not 0: the
reroute branch does not reset the Retry context value. -/
theorem reroute_fresh_retries_counterexample :
    (errorHandler "http://a" poolB ctxR2).1 = .rerouteLb ⟨some 1, some 2⟩ ∧
    GetRetryFromContext (errorHandler "http://a" poolB ctxR2).1.req = 2 ∧
    ¬ GetRetryFromContext (errorHandler "http://a" poolB ctxR2).1.req = 0 := by
  decide

/-- C5 amended: the reroute branch leaves the request's Retry context value
unchanged; because the program only ever writes Retry values of at least 5
(the retry branch stores retries + 1 under the guard retries > 3) and the
reroute branch requires retries at most 3, every rerouted request in a
reachable execution carries a retries count of 0. -/
theorem reroute_fresh_retries (u : String) (s : ServerPool) (r : ReqCtx)
    (hreach : reachableRetry r) (hle : GetRetryFromContext r ≤ 3) :
    (errorHandler u s r).1 =
      .rerouteLb { r with attempt := some (GetAttemptsFromContext r + 1) } ∧
    (errorHandler u s r).1.req.retry = r.retry ∧
    GetRetryFromContext (errorHandler u s r).1.req = 0 := by
  have hnone : r.retry = none := by
    rcases hr : r.retry with _ | k
    · rfl
    · exfalso
      unfold reachableRetry at hreach
      rw [hr] at hreach
      unfold GetRetryFromContext at hle
      rw [hr] at hle
      simp only [Option.getD_some] at hle
      omega
  have h0 : GetRetryFromContext r = 0 := by
    unfold GetRetryFromContext
    rw [hnone]
    rfl
  refine ⟨?_, ?_, ?_⟩
  · simp [errorHandler, h0]
  · simp [errorHandler, h0, HandlerStep.req]
  · simp [errorHandler, h0, HandlerStep.req, GetRetryFromContext, hnone]

/-- Concrete run of the amended reroute property. -/
theorem reroute_fresh_retries_witness :
    (errorHandler "http://a" poolB ctxNone).1 =
      .rerouteLb { ctxNone with attempt := some (GetAttemptsFromContext ctxNone + 1) } ∧
    (errorHandler "http://a" poolB ctxNone).1.req.retry = ctxNone.retry ∧
    GetRetryFromContext (errorHandler "http://a" poolB ctxNone).1.req = 0 :=
  reroute_fresh_retries "http://a" poolB ctxNone (by trivial) (by decide)

/-- C9: an empty backend-list string is fatal at startup: no backend is
registered and the server never begins serving. -/
theorem startup_rejects_empty (parse : String → Option (String × String))
    (l : String) (h : l.length = 0) :
    startup parse l = none := by
  simp [startup, h]

/-- Concrete run of the empty-backend-list rejection. -/
theorem startup_rejects_empty_witness :
    startup (fun t => some (t, t)) "" = none :=
  startup_rejects_empty (fun t => some (t, t)) "" (by decide)

/-- The pool of poolA with every alive flag flipped. -/
def poolAflip : ServerPool :=
  ⟨[⟨"http://a", "a:3031", false⟩, ⟨"http://b", "b:3032", true⟩], 5⟩

/-- setFirstMatch leaves a list with no matching URL unchanged. -/
theorem setFirstMatch_of_no_match (u : String) (a : Bool) :
    ∀ l : List Backend, (∀ b ∈ l, b.url ≠ u) → setFirstMatch u a l = l := by
  intro l
  induction l with
  | nil => intro _; rfl
  | cons b bs ih =>
    intro h
    have hb : b.url ≠ u := h b (by simp)
    simp only [setFirstMatch, if_neg hb]
    rw [ih (fun x hx => h x (List.mem_cons_of_mem b hx))]

/-- On a list with pairwise distinct URLs, setFirstMatch acts as the map
that rewrites the alive flag of exactly the matching backends. -/
theorem setFirstMatch_nodup (u : String) (a : Bool) :
    ∀ l : List Backend, (l.map Backend.url).Nodup →
      setFirstMatch u a l =
        l.map (fun b => if b.url = u then { b with alive := a } else b) := by
  intro l
  induction l with
  | nil => intro _; rfl
  | cons b bs ih =>
    intro hnd
    rw [List.map_cons, List.nodup_cons] at hnd
    by_cases hb : b.url = u
    · simp only [setFirstMatch, if_pos hb, List.map_cons]
      congr 1
      have hbs : ∀ x ∈ bs, (if x.url = u then { x with alive := a } else x) = x := by
        intro x hx
        rw [if_neg]
        intro hxu
        have hmem : x.url ∈ bs.map Backend.url := List.mem_map_of_mem Backend.url hx
        rw [hxu, ← hb] at hmem
        exact hnd.1 hmem
      symm
      rw [List.map_congr_left hbs]
      simp
    · simp only [setFirstMatch, if_neg hb, List.map_cons]
      rw [ih hnd.2]

/-- setFirstMatch with the same arguments is idempotent. -/
theorem setFirstMatch_idem (u : String) (a : Bool) :
    ∀ l : List Backend,
      setFirstMatch u a (setFirstMatch u a l) = setFirstMatch u a l := by
  intro l
  induction l with
  | nil => rfl
  | cons b bs ih =>
    by_cases hb : b.url = u
    · simp only [setFirstMatch, if_pos hb]
    · simp only [setFirstMatch, if_neg hb, ih]

/-- C6: MarkBackendStatus is a silent no-op when no backend's URL matches;
on a pool with pairwise distinct URLs it sets the alive flag of exactly the
matching backend, keeping everything else; and it is idempotent. -/
theorem markBackendStatus_spec (s : ServerPool) (u : String) (v : Bool) :
    ((∀ b ∈ s.backends, b.url ≠ u) → MarkBackendStatus s u v = s) ∧
    ((s.backends.map Backend.url).Nodup →
      (MarkBackendStatus s u v).backends =
        s.backends.map (fun b => if b.url = u then { b with alive := v } else b)) ∧
    MarkBackendStatus (MarkBackendStatus s u v) u v = MarkBackendStatus s u v := by
  refine ⟨fun h => ?_, fun h => ?_, ?_⟩
  · unfold MarkBackendStatus
    rw [setFirstMatch_of_no_match u v s.backends h]
  · unfold MarkBackendStatus
    exact setFirstMatch_nodup u v s.backends h
  · unfold MarkBackendStatus
    rw [setFirstMatch_idem]

/-- Concrete run of the three MarkBackendStatus properties. -/
theorem markBackendStatus_witness :
    MarkBackendStatus poolC3 "http://zzz" false = poolC3 ∧
    (MarkBackendStatus poolC3 "http://b" false).backends =
      poolC3.backends.map
        (fun b => if b.url = "http://b" then { b with alive := false } else b) ∧
    MarkBackendStatus (MarkBackendStatus poolC3 "http://b" false) "http://b" false =
      MarkBackendStatus poolC3 "http://b" false :=
  ⟨(markBackendStatus_spec poolC3 "http://zzz" false).1 (by decide),
   (markBackendStatus_spec poolC3 "http://b" false).2.1 (by decide),
   (markBackendStatus_spec poolC3 "http://b" false).2.2⟩

/-- Closed form of n successive NextIndex results: the k-th result is the
cursor plus k + 1 reduced modulo 2^64 and then modulo the pool length. -/
theorem nextIndexSeq_eq (n : Nat) :
    ∀ s : ServerPool, nextIndexSeq s n =
      (List.range n).map
        (fun k => ((s.currentIndex + k + 1) % uint64Card) % s.backends.length) := by
  induction n with
  | zero => intro s; rfl
  | succ n ih =>
    intro s
    rw [List.range_succ_eq_map, List.map_cons, List.map_map]
    simp only [nextIndexSeq]
    rw [ih (NextIndex s).2]
    congr 1
    apply List.map_congr_left
    intro k _
    simp only [NextIndex, Function.comp_apply]
    congr 1
    rw [add_assoc, Nat.mod_add_mod]
    congr 1
    omega

/-- C7: NextIndex adds 1 to the shared cursor modulo 2^64 and returns the
new cursor value modulo the pool length; it never changes the backend
list; its result depends only on the cursor and the pool length, hence not
on any alive flag; and, short of uint64 wraparound, n successive calls
from cursor c return (c + 1) mod len, (c + 2) mod len, and so on. -/
theorem nextIndex_roundRobin (s t : ServerPool) (n : Nat)
    (_hlen : 1 ≤ s.backends.length) (hcur : t.currentIndex = s.currentIndex)
    (htl : t.backends.length = s.backends.length)
    (hw : s.currentIndex + n < uint64Card) :
    (NextIndex s).2.currentIndex = (s.currentIndex + 1) % uint64Card ∧
    (NextIndex s).1 = ((s.currentIndex + 1) % uint64Card) % s.backends.length ∧
    (NextIndex s).2.backends = s.backends ∧
    (NextIndex t).1 = (NextIndex s).1 ∧
    nextIndexSeq s n = (List.range n).map
      (fun k => ((s.currentIndex + k + 1) % uint64Card) % s.backends.length) ∧
    nextIndexSeq s n = (List.range n).map
      (fun k => (s.currentIndex + k + 1) % s.backends.length) := by
  refine ⟨rfl, rfl, rfl, ?_, nextIndexSeq_eq n s, ?_⟩
  · simp [NextIndex, hcur, htl]
  · rw [nextIndexSeq_eq]
    apply List.map_congr_left
    intro k hk
    rw [List.mem_range] at hk
    rw [Nat.mod_eq_of_lt (show s.currentIndex + k + 1 < uint64Card by omega)]

/-- Concrete run of the NextIndex round-robin description. -/
theorem nextIndex_roundRobin_witness :
    (NextIndex poolA).2.currentIndex = (poolA.currentIndex + 1) % uint64Card ∧
    (NextIndex poolA).1 = ((poolA.currentIndex + 1) % uint64Card) % poolA.backends.length ∧
    (NextIndex poolA).2.backends = poolA.backends ∧
    (NextIndex poolAflip).1 = (NextIndex poolA).1 ∧
    nextIndexSeq poolA 3 = (List.range 3).map
      (fun k => ((poolA.currentIndex + k + 1) % uint64Card) % poolA.backends.length) ∧
    nextIndexSeq poolA 3 = (List.range 3).map
      (fun k => (poolA.currentIndex + k + 1) % poolA.backends.length) :=
  nextIndex_roundRobin poolA poolAflip 3 (by decide) (by decide) (by decide) (by decide)

/-- The scan loop projected to the chosen index equals a first-match search
over the remaining wrapped index sequence. -/
theorem scanAlive_eq_find (bs : List Backend) (next : Nat) :
    ∀ fuel k, (scanAlive bs next k fuel).map Prod.fst =
      ((List.range fuel).map (fun j => (next + (k + j)) % bs.length)).find?
        (fun idx => (bs.getD idx default).alive) := by
  intro fuel
  induction fuel with
  | zero => intro k; rfl
  | succ fuel ih =>
    intro k
    rw [List.range_succ_eq_map, List.map_cons, List.map_map]
    simp only [scanAlive]
    by_cases h : (bs.getD ((next + k) % bs.length) default).alive
    · rw [if_pos h, List.find?_cons_of_pos]
      · simp
      · show (bs.getD ((next + (k + 0)) % bs.length) default).alive = true
        rw [Nat.add_zero]
        exact h
    · rw [if_neg h, List.find?_cons_of_neg, ih (k + 1)]
      · congr 1
        apply List.map_congr_left
        intro j _
        simp only [Function.comp_apply]
        congr 2
        omega
      · show ¬ (bs.getD ((next + (k + 0)) % bs.length) default).alive = true
        rw [Nat.add_zero]
        exact h

/-- The option component of GetNextPeer is the projected scan: the branch
on the offset only affects the stored cursor, never the chosen index. -/
theorem getNextPeer_eq_scan (s : ServerPool) :
    (GetNextPeer s).1 =
      (scanAlive s.backends (NextIndex s).1 0 s.backends.length).map Prod.fst := by
  show (match scanAlive s.backends (NextIndex s).1 0 s.backends.length with
    | none => ((none : Option Nat), (NextIndex s).2)
    | some (idx, k) =>
      if k ≠ 0 then (some idx, { (NextIndex s).2 with currentIndex := idx })
      else (some idx, (NextIndex s).2)).1 = _
  rcases scanAlive s.backends (NextIndex s).1 0 s.backends.length with _ | ⟨idx, k⟩
  · rfl
  · by_cases hk : k = 0 <;> simp [hk]

/-- C2: with at least one backend, GetNextPeer starts at the index obtained
from the single NextIndex call and returns the first alive backend among
the len consecutive wrapped indices from that point; when no backend of
the pool is alive it returns none. -/
theorem getNextPeer_firstAlive (s : ServerPool) (hlen : 1 ≤ s.backends.length) :
    (GetNextPeer s).1 =
      ((List.range s.backends.length).map
        (fun k => ((NextIndex s).1 + k) % s.backends.length)).find?
        (fun idx => (s.backends.getD idx default).alive) ∧
    ((∀ b ∈ s.backends, b.alive = false) → (GetNextPeer s).1 = none) := by
  have hmain : (GetNextPeer s).1 =
      ((List.range s.backends.length).map
        (fun k => ((NextIndex s).1 + k) % s.backends.length)).find?
        (fun idx => (s.backends.getD idx default).alive) := by
    rw [getNextPeer_eq_scan, scanAlive_eq_find]
    congr 1
    apply List.map_congr_left
    intro j _
    congr 2
    omega
  refine ⟨hmain, fun hdead => ?_⟩
  rw [hmain]
  rw [List.find?_eq_none]
  intro x hx
  rw [List.mem_map] at hx
  obtain ⟨k, _, hk⟩ := hx
  have hxlt : x < s.backends.length := by
    rw [← hk]
    exact Nat.mod_lt _ (by omega)
  have hget : s.backends.getD x default = s.backends[x] := by
    rw [List.getD_eq_getElem?_getD, List.getElem?_eq_getElem hxlt]
    rfl
  rw [hget]
  have hmem : s.backends[x] ∈ s.backends := List.getElem_mem hxlt
  simp [hdead _ hmem]

/-- Concrete run of the GetNextPeer characterization: on poolC3 the scan
skips the dead backend at the starting index 0 and returns index 1. -/
theorem getNextPeer_firstAlive_witness :
    ((GetNextPeer poolC3).1 =
      ((List.range poolC3.backends.length).map
        (fun k => ((NextIndex poolC3).1 + k) % poolC3.backends.length)).find?
        (fun idx => (poolC3.backends.getD idx default).alive) ∧
      ((∀ b ∈ poolC3.backends, b.alive = false) → (GetNextPeer poolC3).1 = none)) ∧
    ((GetNextPeer poolDead).1 =
      ((List.range poolDead.backends.length).map
        (fun k => ((NextIndex poolDead).1 + k) % poolDead.backends.length)).find?
        (fun idx => (poolDead.backends.getD idx default).alive) ∧
      ((∀ b ∈ poolDead.backends, b.alive = false) → (GetNextPeer poolDead).1 = none)) :=
  ⟨getNextPeer_firstAlive poolC3 (by decide),
   getNextPeer_firstAlive poolDead (by decide)⟩

/-- When the backend at the starting index is alive, GetNextPeer returns
that index at once. -/
theorem getNextPeer_alive_start (s : ServerPool) (hlen : 1 ≤ s.backends.length)
    (halive : (s.backends.getD (NextIndex s).1 default).alive = true) :
    (GetNextPeer s).1 = some (NextIndex s).1 := by
  rw [getNextPeer_eq_scan]
  rcases hl : s.backends.length with _ | m
  · exact absurd hl (by omega)
  · have hlen0 : 0 < s.backends.length := by omega
    have hlt : (NextIndex s).1 < s.backends.length := by
      show ((s.currentIndex + 1) % uint64Card) % s.backends.length <
        s.backends.length
      exact Nat.mod_lt _ hlen0
    simp only [scanAlive]
    rw [Nat.add_zero, Nat.mod_eq_of_lt hlt, if_pos halive]
    rfl

/-- Every backend produced by the registration loop has alive true. -/
theorem buildPool_alive (parse : String → Option (String × String)) :
    ∀ ts bs, buildPool parse ts = some bs → ∀ b ∈ bs, b.alive = true := by
  intro ts
  induction ts with
  | nil =>
    intro bs h b hb
    simp only [buildPool, Option.some.injEq] at h
    subst h
    simp at hb
  | cons t ts ih =>
    intro bs h b hb
    simp only [buildPool] at h
    rcases hp : parse t with _ | ⟨u, hst⟩ <;> rw [hp] at h
    · exact absurd h (by simp)
    · rcases hb2 : buildPool parse ts with _ | bs2 <;> rw [hb2] at h
      · exact absurd h (by simp)
      · simp only [Option.some.injEq] at h
        subst h
        rcases List.mem_cons.mp hb with hb | hb
        · rw [hb]
        · exact ih bs2 hb2 b hb

/-- C10: every backend the registration loop builds carries alive true, so
before the first health-check pass completes the whole pool reports alive;
in that window GetNextPeer can return any configured backend: for each
index i there is a cursor value from which GetNextPeer returns exactly i. -/
theorem startup_all_alive (parse : String → Option (String × String))
    (ts : List String) (bs : List Backend) (i : Nat)
    (hs : buildPool parse ts = some bs) (hi : i < bs.length)
    (hW : i < uint64Card) :
    bs.all (fun b => b.alive) = true ∧
    (GetNextPeer ⟨bs, cursorFor i⟩).1 = some i := by
  have halive : ∀ b ∈ bs, b.alive = true := buildPool_alive parse ts bs hs
  have hnext : (NextIndex (⟨bs, cursorFor i⟩ : ServerPool)).1 = i := by
    show ((cursorFor i + 1) % uint64Card) % bs.length = i
    unfold cursorFor
    by_cases h0 : i = 0
    · rw [if_pos h0, h0]
      have hone : (1 : Nat) ≤ uint64Card := by norm_num [uint64Card]
      rw [(by omega : uint64Card - 1 + 1 = uint64Card), Nat.mod_self]
      exact Nat.zero_mod _
    · rw [if_neg h0, (by omega : i - 1 + 1 = i), Nat.mod_eq_of_lt hW,
        Nat.mod_eq_of_lt hi]
  constructor
  · rw [List.all_eq_true]
    exact halive
  · have hgetm : bs.getD i default ∈ bs := by
      rw [List.getD_eq_getElem?_getD, List.getElem?_eq_getElem hi]
      exact List.getElem_mem hi
    have hres := getNextPeer_alive_start ⟨bs, cursorFor i⟩
      (show 1 ≤ bs.length by omega) (by rw [hnext]; exact halive _ hgetm)
    rw [hnext] at hres
    exact hres

/-- The backend list the startup oracle builds from the string a,b. -/
def startupBs : List Backend := [⟨"a", "a", true⟩, ⟨"b", "b", true⟩]

/-- Concrete startup with two backends: both alive, and each reachable
from a suitable cursor. -/
theorem startup_all_alive_witness :
    ((startupBs.all (fun b => b.alive) = true ∧
      (GetNextPeer ⟨startupBs, cursorFor 0⟩).1 = some 0)) ∧
    ((startupBs.all (fun b => b.alive) = true ∧
      (GetNextPeer ⟨startupBs, cursorFor 1⟩).1 = some 1)) :=
  ⟨startup_all_alive (fun t => some (t, t)) ["a", "b"] startupBs 0 (by decide)
      (by decide) (by decide),
   startup_all_alive (fun t => some (t, t)) ["a", "b"] startupBs 1 (by decide)
      (by decide) (by decide)⟩

/-- C8: a health-check pass keeps the pool length; at every position it
keeps the backend's url and host and sets its alive flag to the outcome of
dialing its host under the fixed 2-second timeout; and the pass at index 0
of the goroutine's schedule is the forced startup pass, run before any
tick of the 20-second ticker. -/
theorem healthCheck_pass (dial : String → Nat → Bool) (s : ServerPool) (i : Nat)
    (hi : i < s.backends.length) :
    (HealthCheck dial s).backends.length = s.backends.length ∧
    (HealthCheck dial s).backends.getD i default =
      { s.backends.getD i default with
          alive := dial (s.backends.getD i default).host healthTimeout } ∧
    healthCheckStates dial s 0 = HealthCheck dial s := by
  refine ⟨by simp [HealthCheck], ?_, rfl⟩
  have hmap : (HealthCheck dial s).backends =
      s.backends.map fun b => { b with alive := isBackendAlive dial b.host } := rfl
  rw [hmap, List.getD_eq_getElem?_getD, List.getElem?_map,
    List.getElem?_eq_getElem hi]
  rw [List.getD_eq_getElem?_getD, List.getElem?_eq_getElem hi]
  rfl

/-- Concrete health-check pass: the dial oracle accepts only host b:2, so
the pass revives exactly the backend at index 1 of poolC3. -/
theorem healthCheck_pass_witness :
    (HealthCheck (fun h _ => h == "b:2") poolC3).backends.length =
      poolC3.backends.length ∧
    (HealthCheck (fun h _ => h == "b:2") poolC3).backends.getD 0 default =
      { poolC3.backends.getD 0 default with
          alive := (fun (h : String) (_ : Nat) => h == "b:2")
            (poolC3.backends.getD 0 default).host healthTimeout } ∧
    healthCheckStates (fun h _ => h == "b:2") poolC3 0 =
      HealthCheck (fun h _ => h == "b:2") poolC3 :=
  healthCheck_pass (fun h _ => h == "b:2") poolC3 0 (by decide)

end SimpleLB
